import Mathlib

/-!
Verification of the pre-atmosphere velocity correction utility
(VelocityCorrection.py) against its natural-language specification.

The Python source is shallowly embedded below.  Numbers are modeled as
exact rationals (Python floats are rationals; the float constant math.pi
is embedded as the exact rational value of the IEEE-754 double).  Python
exceptions are modeled with an explicit error type carried in Except, so
each exception class of the original program corresponds to one
constructor and sequencing of fallible statements is Except.bind.
A file system is a partial map from file names to the list of text lines
of the file (the lines an iteration over the open file would yield).
-/

set_option autoImplicit false

/-- Model of the Python exception classes that the program can raise:
ValueError (raised by float conversion, by min() on an empty sequence,
by list.index, and explicitly by velocityCorrection), IOError /
FileNotFoundError (raised by open on a missing file), IndexError
(raised by subscripting a string or list out of range) and TypeError
(raised by calling zangleModel with the wrong number of arguments). -/
inductive PyError where
  | fileNotFound (name : String)
  | valueError (msg : String)
  | indexError
  | typeError
deriving DecidableEq, Repr

/-- The exception class of an error, as a name.  Two errors are
distinguishable by kind exactly when their classes differ. -/
def errClass : PyError → String
  | PyError.fileNotFound _ => "FileNotFoundError"
  | PyError.valueError _ => "ValueError"
  | PyError.indexError => "IndexError"
  | PyError.typeError => "TypeError"

/-- A file system: maps a file name to the lines of the file, or none
when the file does not exist. -/
def FileSystem : Type := String → Option (List String)

/-- Whitespace characters stripped by Python float() around a literal. -/
def isSpaceChar (c : Char) : Bool :=
  c = ' ' || c = '\t' || c = '\n' || c = '\r' || c = '\x0B' || c = '\x0C'

/-- Numeric value of a digit string (most significant digit first). -/
def digitsVal (cs : List Char) : Nat :=
  cs.foldl (fun a c => 10 * a + (c.toNat - 48)) 0

/-- Value of the mantissa part of a Python float literal:
digits, optionally with a decimal point (at least one digit in total). -/
def parseMantissa (cs : List Char) : Option ℚ :=
  let intPart := cs.takeWhile Char.isDigit
  let rest := cs.dropWhile Char.isDigit
  match rest with
  | [] => if intPart.isEmpty then none else some (digitsVal intPart : ℚ)
  | '.' :: frac =>
    if frac.all Char.isDigit && !(intPart.isEmpty && frac.isEmpty) then
      some ((digitsVal intPart : ℚ) + (digitsVal frac : ℚ) / (10 : ℚ) ^ frac.length)
    else none
  | _ => none

/-- Value of the exponent part of a Python float literal
(after the letter e): an optionally signed nonempty digit string. -/
def parseExpPart (cs : List Char) : Option ℤ :=
  match cs with
  | '+' :: ds => if !ds.isEmpty && ds.all Char.isDigit then some (digitsVal ds : ℤ) else none
  | '-' :: ds => if !ds.isEmpty && ds.all Char.isDigit then some (-(digitsVal ds : ℤ)) else none
  | ds => if !ds.isEmpty && ds.all Char.isDigit then some (digitsVal ds : ℤ) else none

/-- Model of the Python float() conversion on finite decimal literals:
surrounding whitespace is stripped, then an optional sign, a mantissa
and an optional exponent are read.  Returns none when the string is not
a valid float literal (float() then raises ValueError). -/
def parseFloat (cs : List Char) : Option ℚ :=
  let cs := (cs.dropWhile isSpaceChar).reverse.dropWhile isSpaceChar |>.reverse
  let signed : ℚ × List Char :=
    match cs with
    | '+' :: rest => (1, rest)
    | '-' :: rest => (-1, rest)
    | _ => (1, cs)
  let mant := signed.2.takeWhile (fun c => !(c = 'e' || c = 'E'))
  let rest := signed.2.dropWhile (fun c => !(c = 'e' || c = 'E'))
  match rest with
  | [] => (parseMantissa mant).map (fun m => signed.1 * m)
  | _ :: expPart =>
    match parseMantissa mant, parseExpPart expPart with
    | some m, some e => some (signed.1 * m * (10 : ℚ) ^ e)
    | _, _ => none

/-- Model of the Python str.split with a one-character separator:
splits at every occurrence of the delimiter, keeping empty pieces
(so the result always has one more piece than there are delimiters). -/
def splitChars (delimiter : Char) : List Char → List (List Char)
  | [] => [[]]
  | c :: rest =>
    if c = delimiter then [] :: splitChars delimiter rest
    else
      match splitChars delimiter rest with
      | [] => [[c]]
      | fld :: flds => (c :: fld) :: flds

/-- VelocityCorrection.py line 23: remove every newline and carriage
return character from a line read from the file. -/
def stripNewlines (raw : String) : List Char :=
  raw.data.filter (fun c => !(c = '\n' || c = '\r'))

/-- True when the first character of the (nonempty) line is the comment
marker, as tested by line 26 of VelocityCorrection.py. -/
def isComment (cs : List Char) : Bool :=
  match cs with
  | '#' :: _ => true
  | _ => false

/-- First non-whitespace content of a line is the comment marker.
This is the skip rule as worded by the specification; it is used only
to state claims, the code itself tests the very first character. -/
def firstNonWSIsHash (cs : List Char) : Bool :=
  match cs.dropWhile isSpaceChar with
  | '#' :: _ => true
  | _ => false

/-- Sequencing of a list of fallible computations, in order, aborting at
the first error: the model of a Python list(map(...)) / comprehension
whose body can raise. -/
def mapE {α β : Type} (f : α → Except PyError β) : List α → Except PyError (List β)
  | [] => Except.ok []
  | a :: as =>
    Except.bind (f a) (fun b =>
      Except.bind (mapE f as) (fun bs => Except.ok (b :: bs)))

/-- Conversion of one field to a number, VelocityCorrection.py line 30:
float(field), raising ValueError on a non-numeric field. -/
def parseField (fld : List Char) : Except PyError ℚ :=
  match parseFloat fld with
  | some q => Except.ok q
  | none => Except.error (PyError.valueError
      ("could not convert string to float: \x27" ++ String.mk fld ++ "\x27"))

/-- VelocityCorrection.py line 30: split the line on the delimiter and
convert every field with float(). -/
def parseLine (delimiter : Char) (cs : List Char) : Except PyError (List ℚ) :=
  mapE parseField (splitChars delimiter cs)

/-- VelocityCorrection.py lines 20..32, the body of the loader loop:
for each line in order, strip newline characters, test the first
character (IndexError on an empty line), skip the line when that
character is the comment marker, otherwise parse it and append it. -/
def loadLines (delimiter : Char) : List String → Except PyError (List (List ℚ))
  | [] => Except.ok []
  | raw :: rest =>
    if stripNewlines raw = [] then Except.error PyError.indexError
    else if isComment (stripNewlines raw) then loadLines delimiter rest
    else
      Except.bind (parseLine delimiter (stripNewlines raw)) (fun row =>
        Except.bind (loadLines delimiter rest) (fun rows =>
          Except.ok (row :: rows)))

/-- VelocityCorrection.py lines 11..35, loadFitCSV: open the file
(IOError when it does not exist) and read the rows. -/
def loadFitCSV (fs : FileSystem) (file_name : String) (delimiter : Char) :
    Except PyError (List (List ℚ)) :=
  match fs file_name with
  | none => Except.error (PyError.fileNotFound file_name)
  | some ls => loadLines delimiter ls

/-- VelocityCorrection.py lines 39..51, zangleModel: the degree-six
polynomial in the zenith angle with the seven fit parameters. -/
def zangleModel (zangle a b c d e f g : ℚ) : ℚ :=
  a + b * zangle + c * zangle ^ 2 + d * zangle ^ 3 + e * zangle ^ 4
    + f * zangle ^ 5 + g * zangle ^ 6

/-- Exact rational value of the IEEE-754 double math.pi used by the
Python runtime (math.pi.as_integer_ratio()). -/
def mathPi : ℚ := 884279719003555 / 281474976710656

/-- math.radians: converts degrees to radians. -/
def radiansQ (deg : ℚ) : ℚ := deg * mathPi / 180

/-- Model of the call zangleModel(math.radians(zangle), *fit_params) on
line 147: Python raises TypeError unless fit_params has exactly the
seven positional arguments. -/
def zangleApply (zangle : ℚ) (params : List ℚ) : Except PyError ℚ :=
  match params with
  | [a, b, c, d, e, f, g] => Except.ok (zangleModel zangle a b c d e f g)
  | _ => Except.error PyError.typeError

/-- VelocityCorrection.py lines 93..103: map the system type string to
its id, raising ValueError on anything outside the closed set. -/
def systemIdOf (system_type : String) : Except PyError ℚ :=
  if system_type = "intensified" then Except.ok 2
  else if system_type = "moderate" then Except.ok 1
  else if system_type = "allsky" then Except.ok 0
  else Except.error (PyError.valueError
    ("system_type = " ++ system_type ++
      " not found! Try using \x27intensified\x27, \x27moderate\x27 or \x27allsky\x27."))

/-- VelocityCorrection.py lines 107..117: map the meteoroid type string
to its id, raising ValueError on anything outside the closed set.  The
message of the original program misspells the accepted value cometary
as comeraty; the embedding keeps the message verbatim. -/
def meteoroidIdOf (meteoroid_type : String) : Except PyError ℚ :=
  if meteoroid_type = "cometary" then Except.ok 0
  else if meteoroid_type = "asteroidal" then Except.ok 1
  else if meteoroid_type = "iron-rich" then Except.ok 2
  else Except.error (PyError.valueError
    ("meteoroid_type = " ++ meteoroid_type ++
      " not found! Try using \x27comeraty\x27, \x27asteroidal\x27 or \x27iron-rich\x27."))

/-- Python subscript l[i] on a list: the element, or IndexError when
the index is out of range. -/
def pyGet {α : Type} (l : List α) (i : Nat) : Except PyError α :=
  match l.get? i with
  | some x => Except.ok x
  | none => Except.error PyError.indexError

/-- Minimum of a list, as a total function into Option (used both by
the embedding and by the spec-side selection). -/
def listMin : List ℚ → Option ℚ
  | [] => none
  | x :: xs => some (xs.foldl min x)

/-- Python min() on a list: its least element, or ValueError on an
empty sequence. -/
def pyMin (l : List ℚ) : Except PyError ℚ :=
  match l with
  | [] => Except.error (PyError.valueError "min() arg is an empty sequence")
  | x :: xs => Except.ok (xs.foldl min x)

/-- Python list.index(x): index of the first occurrence of x, or
ValueError when x does not occur. -/
def pyIndexOf (l : List ℚ) (x : ℚ) : Except PyError Nat :=
  match l with
  | [] => Except.error (PyError.valueError "is not in list")
  | y :: ys =>
    if y = x then Except.ok 0
    else
      Except.bind (pyIndexOf ys x) (fun n => Except.ok (n + 1))

/-- Body of the comprehension on line 128: abs(line[2]/1000 - v_init). -/
def velDiffOf (v_init : ℚ) (line : List ℚ) : Except PyError ℚ :=
  Except.bind (pyGet line 2) (fun x => Except.ok |x / 1000 - v_init|)

/-- Body of the comprehension on line 134:
abs(fit_data[vel_ind][3] - peak_mag). -/
def magDiffOf (fit_data : List (List ℚ)) (peak_mag : ℚ) (i : Nat) :
    Except PyError ℚ :=
  Except.bind (pyGet fit_data i) (fun line =>
    Except.bind (pyGet line 3) (fun x => Except.ok |x - peak_mag|))

/-- VelocityCorrection.py lines 127..144 (up to the subscript that
fetches the matched row): compute the velocity distances, collect every
index attaining the minimal distance, compute the magnitude distances
of exactly those rows, and fetch the row at the index of the first
minimal magnitude distance. -/
def selectRecord (fit_data : List (List ℚ)) (v_init peak_mag : ℚ) :
    Except PyError (List ℚ) :=
  Except.bind (mapE (velDiffOf v_init) fit_data) (fun vel_diffs =>
    let vel_indices := (List.range vel_diffs.length).filter
      (fun i => decide (vel_diffs.get? i = listMin vel_diffs))
    Except.bind (mapE (magDiffOf fit_data peak_mag) vel_indices) (fun mag_diffs =>
      Except.bind (pyMin mag_diffs) (fun mag_min =>
        Except.bind (pyIndexOf mag_diffs mag_min) (fun mag_ind =>
          Except.bind (pyGet vel_indices mag_ind) (fun idx =>
            pyGet fit_data idx)))))

/-- VelocityCorrection.py lines 124..125: one of the two category
filters, [line for line in fit_data if line[idx] == key] (the subscript
can raise IndexError on a short row). -/
def filterKey (idx : Nat) (key : ℚ) : List (List ℚ) → Except PyError (List (List ℚ))
  | [] => Except.ok []
  | line :: rest =>
    Except.bind (pyGet line idx) (fun x =>
      Except.bind (filterKey idx key rest) (fun tail =>
        Except.ok (if x = key then line :: tail else tail)))

/-- VelocityCorrection.py lines 56..147, velocityCorrection: clamp the
zenith angle to 75 degrees, resolve the category ids, load the table,
filter it by system id then meteoroid id, select the best matching row,
evaluate the polynomial at the zenith angle in radians with the row
coefficients line[4:], and return the result divided by 1000. -/
def velocityCorrection (fs : FileSystem) (v_init peak_mag zangle : ℚ)
    (meteoroid_type system_type : String) : Except PyError ℚ :=
  let zangle := if zangle > 75 then (75 : ℚ) else zangle
  Except.bind (systemIdOf system_type) (fun system_id =>
    Except.bind (meteoroidIdOf meteoroid_type) (fun meteoroid_id =>
      Except.bind (loadFitCSV fs "preatmosphere_fits.csv" ';') (fun fit_data0 =>
        Except.bind (filterKey 0 system_id fit_data0) (fun fit_data1 =>
          Except.bind (filterKey 1 meteoroid_id fit_data1) (fun fit_data =>
            Except.bind (selectRecord fit_data v_init peak_mag) (fun line =>
              Except.bind (zangleApply (radiansQ zangle) (line.drop 4)) (fun result =>
                Except.ok (result / 1000))))))))

/-- Velocity distance of a row from the queried velocity, as worded by
the specification: abs(reference_velocity/1000 - v_init). -/
def velDist (v_init : ℚ) (line : List ℚ) : ℚ := |line.getD 2 0 / 1000 - v_init|

/-- Magnitude distance of a row from the queried peak magnitude, as
worded by the specification. -/
def magDist (peak_mag : ℚ) (line : List ℚ) : ℚ := |line.getD 3 0 - peak_mag|

/-- Selection as worded by the specification: find the minimal velocity
distance, collect all rows attaining it (the velocity-tied candidate
set, in table order), and among exactly those rows take the first one
attaining the minimal magnitude distance. -/
def specSelect (fit_data : List (List ℚ)) (v_init peak_mag : ℚ) :
    Option (List ℚ) :=
  match listMin (fit_data.map (velDist v_init)) with
  | none => none
  | some best_vel =>
    let tied := fit_data.filter (fun l => decide (velDist v_init l = best_vel))
    match listMin (tied.map (magDist peak_mag)) with
    | none => none
    | some best_mag => tied.find? (fun l => decide (magDist peak_mag l = best_mag))

/-- True when the pattern occurs as a contiguous run in the text. -/
def startsWithChars : List Char → List Char → Bool
  | _, [] => true
  | [], _ :: _ => false
  | a :: as, b :: bs => (a = b) && startsWithChars as bs

/-- Substring test over character lists. -/
def hasSubChars (s pat : List Char) : Bool :=
  match s with
  | [] => pat.isEmpty
  | _ :: rest => startsWithChars s pat || hasSubChars rest pat

/-- Substring test over strings. -/
def strContains (s pat : String) : Bool := hasSubChars s.data pat.data

theorem bind_ok {α β : Type} (a : α) (f : α → Except PyError β) :
    Except.bind (Except.ok a) f = f a := rfl

theorem bind_error {α β : Type} (e : PyError) (f : α → Except PyError β) :
    Except.bind (Except.error e : Except PyError α) f
      = (Except.error e : Except PyError β) := rfl

theorem bind_eq_ok {α β : Type} {ma : Except PyError α} {f : α → Except PyError β}
    {b : β} : Except.bind ma f = Except.ok b ↔
      ∃ a, ma = Except.ok a ∧ f a = Except.ok b := by
  cases ma with
  | ok a => simp [bind_ok]
  | error e => simp [bind_error]

theorem pyGet_eq_ok {α : Type} {l : List α} {i : Nat} {x : α} :
    pyGet l i = Except.ok x ↔ l.get? i = some x := by
  unfold pyGet
  cases h : l.get? i <;> simp

theorem get?_eq_some_getD {α : Type} (d : α) :
    ∀ (l : List α) (i : Nat), i < l.length → l.get? i = some (l.getD i d) := by
  intro l
  induction l with
  | nil => intro i h; simp at h
  | cons a as ih =>
    intro i h
    cases i with
    | zero => rfl
    | succ n => exact ih n (by simpa using h)

theorem pyGet_of_lt {α : Type} (d : α) {l : List α} {i : Nat} (h : i < l.length) :
    pyGet l i = Except.ok (l.getD i d) := by
  rw [pyGet_eq_ok]
  exact get?_eq_some_getD d l i h

theorem getD_mem {α : Type} (d : α) {l : List α} {i : Nat} (h : i < l.length) :
    l.getD i d ∈ l :=
  List.get?_mem (get?_eq_some_getD d l i h)

theorem mapE_ok_of {α β : Type} (f : α → Except PyError β) (g : α → β) :
    ∀ L : List α, (∀ a ∈ L, f a = Except.ok (g a)) →
      mapE f L = Except.ok (L.map g) := by
  intro L
  induction L with
  | nil => intro _; rfl
  | cons a as ih =>
    intro h
    have ha := h a (List.mem_cons_self a as)
    have has := ih (fun x hx => h x (List.mem_cons_of_mem a hx))
    simp [mapE, ha, has, bind_ok]

theorem filter_map_comm {α β : Type} (f : α → β) (q : β → Bool) :
    ∀ l : List α, (l.map f).filter q = (l.filter (fun a => q (f a))).map f := by
  intro l
  induction l with
  | nil => rfl
  | cons a as ih =>
    simp only [List.map_cons, List.filter_cons]
    cases h : q (f a) <;> simp [h, ih]

theorem filter_range_getD {α : Type} (p : α → Bool) (d : α) :
    ∀ L : List α,
      ((List.range L.length).filter (fun i => p (L.getD i d))).map
          (fun i => L.getD i d)
        = L.filter p := by
  intro L
  induction L with
  | nil => rfl
  | cons a as ih =>
    have e1 : List.range (a :: as).length
        = 0 :: List.map Nat.succ (List.range as.length) := by
      rw [List.length_cons, List.range_succ_eq_map]
    have e2 : (List.map Nat.succ (List.range as.length)).filter
          (fun i => p ((a :: as).getD i d))
        = List.map Nat.succ
            ((List.range as.length).filter (fun i => p (as.getD i d))) := by
      rw [filter_map_comm]
      rfl
    have e3 : (List.map Nat.succ
          ((List.range as.length).filter (fun i => p (as.getD i d)))).map
            (fun i => (a :: as).getD i d)
        = List.filter p as := by
      rw [List.map_map]
      exact ih
    have h0 : (a :: as).getD 0 d = a := rfl
    rw [e1, List.filter_cons]
    simp only [h0]
    by_cases hpa : p a = true
    · rw [if_pos hpa, List.map_cons, e2, e3, List.filter_cons, if_pos hpa]
      simp [h0]
    · rw [if_neg hpa, e2, e3, List.filter_cons, if_neg hpa]

theorem listMin_mem : ∀ {l : List ℚ} {m : ℚ}, listMin l = some m → m ∈ l := by
  intro l
  have key : ∀ (xs : List ℚ) (a : ℚ), xs.foldl min a = a ∨ xs.foldl min a ∈ xs := by
    intro xs
    induction xs with
    | nil => intro a; exact Or.inl rfl
    | cons x xs ih =>
      intro a
      rcases ih (min a x) with h | h
      · rcases min_choice a x with hm | hm
        · exact Or.inl (by rw [List.foldl_cons, h, hm])
        · exact Or.inr (by rw [List.foldl_cons, h, hm]; exact List.mem_cons_self x xs)
      · exact Or.inr (List.mem_cons_of_mem x (by simpa using h))
  cases l with
  | nil => intro m h; simp [listMin] at h
  | cons x xs =>
    intro m h
    simp only [listMin, Option.some_inj] at h
    rcases key xs x with hk | hk
    · rw [← h, hk]; exact List.mem_cons_self x xs
    · exact List.mem_cons_of_mem x (h ▸ hk)

theorem pyMin_eq_listMin (l : List ℚ) :
    pyMin l = match listMin l with
      | some m => Except.ok m
      | none => Except.error (PyError.valueError "min() arg is an empty sequence") := by
  cases l <;> rfl

theorem pyIndexOf_ok_of_mem :
    ∀ {l : List ℚ} {x : ℚ}, x ∈ l → ∃ j, pyIndexOf l x = Except.ok j := by
  intro l
  induction l with
  | nil => intro x h; simp at h
  | cons y ys ih =>
    intro x h
    by_cases hy : y = x
    · exact ⟨0, by simp [pyIndexOf, hy]⟩
    · have hx : x ∈ ys := by
        rcases List.mem_cons.mp h with h1 | h1
        · exact absurd h1.symm hy
        · exact h1
      obtain ⟨j, hj⟩ := ih hx
      exact ⟨j + 1, by simp [pyIndexOf, hy, hj, bind_ok]⟩

theorem pyIndexOf_map_find {α : Type} (g : α → ℚ) (x : ℚ) :
    ∀ (T : List α) (j : Nat), pyIndexOf (T.map g) x = Except.ok j →
      ∃ t, T.get? j = some t ∧ T.find? (fun a => decide (g a = x)) = some t := by
  intro T
  induction T with
  | nil => intro j h; simp [pyIndexOf] at h
  | cons t ts ih =>
    intro j h
    simp only [List.map_cons, pyIndexOf] at h
    by_cases hgt : g t = x
    · rw [if_pos hgt] at h
      have hj : j = 0 := by
        have := h
        simp only [Except.ok.injEq] at this
        exact this.symm
      subst hj
      refine ⟨t, rfl, ?_⟩
      rw [List.find?_cons_of_pos]
      simpa using hgt
    · rw [if_neg hgt] at h
      rcases hrec : pyIndexOf (ts.map g) x with e | n
      · rw [hrec, bind_error] at h; exact absurd h (by simp)
      · rw [hrec, bind_ok] at h
        have hj : j = n + 1 := by
          simp only [Except.ok.injEq] at h
          exact h.symm
        subst hj
        obtain ⟨u, hu1, hu2⟩ := ih n hrec
        refine ⟨u, by simpa using hu1, ?_⟩
        rw [List.find?_cons_of_neg]
        · exact hu2
        · simpa using hgt

/-- Claim C1: for every query against the schema-B table, the selection
collects all rows whose velocity distance attains the minimum (not only
the first), then among exactly that velocity-tied candidate set picks
the row minimizing the magnitude distance, remaining ties broken by
first occurrence in the tied-candidate ordering; this is stated as the
equality of the embedded selection (lines 127..144) with the selection
as worded by the specification. -/
theorem selectRecord_matches_spec (L : List (List ℚ)) (v m : ℚ)
    (h11 : ∀ l ∈ L, l.length = 11) :
    selectRecord L v m =
      match specSelect L v m with
      | some r => Except.ok r
      | none => Except.error (PyError.valueError "min() arg is an empty sequence") := by
  have hvd : mapE (velDiffOf v) L = Except.ok (L.map (velDist v)) := by
    apply mapE_ok_of
    intro l hl
    have h2 : 2 < l.length := by rw [h11 l hl]; norm_num
    unfold velDiffOf
    rw [pyGet_of_lt (0 : ℚ) h2, bind_ok]
    rfl
  cases hmv : listMin (L.map (velDist v)) with
  | none =>
    have hL : L = [] := by
      cases L with
      | nil => rfl
      | cons x xs => simp [listMin] at hmv
    subst hL
    rfl
  | some mv =>
    have hcond : (List.range (L.map (velDist v)).length).filter
          (fun i => decide ((L.map (velDist v)).get? i = listMin (L.map (velDist v))))
        = (List.range L.length).filter
            (fun i => (fun l => decide (velDist v l = mv)) (L.getD i ([] : List ℚ))) := by
      rw [List.length_map]
      apply List.filter_congr
      intro i hi
      have hilt : i < L.length := List.mem_range.mp hi
      have hget : (L.map (velDist v)).get? i
          = some (velDist v (L.getD i ([] : List ℚ))) := by
        rw [List.get?_map, get?_eq_some_getD ([] : List ℚ) L i hilt]
        rfl
      rw [hget, hmv]
      exact decide_eq_decide.mpr Option.some_inj
    have hTT : ((List.range (L.map (velDist v)).length).filter
          (fun i => decide ((L.map (velDist v)).get? i = listMin (L.map (velDist v))))).map
            (fun i => L.getD i ([] : List ℚ))
        = L.filter (fun l => decide (velDist v l = mv)) := by
      rw [hcond]
      exact filter_range_getD (fun l => decide (velDist v l = mv)) ([] : List ℚ) L
    have hmagfun : ∀ i ∈ (List.range (L.map (velDist v)).length).filter
          (fun i => decide ((L.map (velDist v)).get? i = listMin (L.map (velDist v)))),
        magDiffOf L m i = Except.ok (magDist m (L.getD i ([] : List ℚ))) := by
      intro i hi
      have hilt : i < L.length := by
        have := List.mem_range.mp (List.mem_filter.mp hi).1
        simpa [List.length_map] using this
      have hline : L.getD i ([] : List ℚ) ∈ L := getD_mem _ hilt
      have h3 : 3 < (L.getD i ([] : List ℚ)).length := by rw [h11 _ hline]; norm_num
      unfold magDiffOf
      rw [pyGet_of_lt ([] : List ℚ) hilt, bind_ok, pyGet_of_lt (0 : ℚ) h3, bind_ok]
      rfl
    have hmg : mapE (magDiffOf L m) ((List.range (L.map (velDist v)).length).filter
          (fun i => decide ((L.map (velDist v)).get? i = listMin (L.map (velDist v)))))
        = Except.ok ((L.filter (fun l => decide (velDist v l = mv))).map (magDist m)) := by
      rw [mapE_ok_of (magDiffOf L m) (fun i => magDist m (L.getD i ([] : List ℚ))) _ hmagfun]
      rw [← hTT, List.map_map]
      rfl
    have hmem : mv ∈ L.map (velDist v) := listMin_mem hmv
    obtain ⟨l1, hl1L, hl1⟩ := List.mem_map.mp hmem
    have hl1T : l1 ∈ L.filter (fun l => decide (velDist v l = mv)) :=
      List.mem_filter.mpr ⟨hl1L, by simp [hl1]⟩
    cases hfp : L.filter (fun l => decide (velDist v l = mv)) with
    | nil => rw [hfp] at hl1T; simp at hl1T
    | cons t0 ts =>
      rw [hfp] at hmg hTT
      have hmm : listMin ((t0 :: ts).map (magDist m))
          = some ((ts.map (magDist m)).foldl min (magDist m t0)) := rfl
      obtain ⟨j, hj⟩ := pyIndexOf_ok_of_mem (listMin_mem hmm)
      obtain ⟨t, htj, htfind⟩ := pyIndexOf_map_find (magDist m) _ (t0 :: ts) j hj
      have hspec : specSelect L v m = some t := by
        unfold specSelect
        rw [hmv]
        dsimp only
        rw [hfp, hmm]
        dsimp only
        exact htfind
      have hget? : Option.map (fun i => L.getD i ([] : List ℚ))
          (((List.range (L.map (velDist v)).length).filter
            (fun i => decide ((L.map (velDist v)).get? i
              = listMin (L.map (velDist v))))).get? j) = some t := by
        rw [← List.get?_map, hTT]
        exact htj
      obtain ⟨i0, hi0, hgd⟩ := Option.map_eq_some'.mp hget?
      have hi0mem : i0 ∈ (List.range (L.map (velDist v)).length).filter
          (fun i => decide ((L.map (velDist v)).get? i = listMin (L.map (velDist v)))) :=
        List.get?_mem hi0
      have hi0lt : i0 < L.length := by
        have := List.mem_range.mp (List.mem_filter.mp hi0mem).1
        simpa [List.length_map] using this
      have hpymin : pyMin ((t0 :: ts).map (magDist m))
          = Except.ok ((ts.map (magDist m)).foldl min (magDist m t0)) := rfl
      have hpg1 : pyGet ((List.range (L.map (velDist v)).length).filter
            (fun i => decide ((L.map (velDist v)).get? i
              = listMin (L.map (velDist v))))) j = Except.ok i0 :=
        pyGet_eq_ok.mpr hi0
      have hpg2 : pyGet L i0 = Except.ok t := by
        rw [pyGet_of_lt ([] : List ℚ) hi0lt, hgd]
      have hsel : selectRecord L v m = Except.ok t := by
        unfold selectRecord
        simp only [hvd, bind_ok]
        rw [hmg]
        simp only [bind_ok]
        rw [hpymin]
        simp only [bind_ok]
        rw [hj]
        simp only [bind_ok]
        rw [hpg1]
        simp only [bind_ok]
        exact hpg2
      rw [hsel, hspec]

/-- Claim C2: for every valid input (zenith angle within the covered
range, valid category strings, successful load, filter and selection),
the public correction returns zangleModel evaluated at the zenith angle
converted from degrees to radians (multiplication by the value of
math.pi over 180), applied to the selected row coefficients line[4:],
divided by 1000. -/
theorem velocityCorrection_polynomial_eval
    (fs : FileSystem) (v m z sid mid : ℚ) (mt st : String)
    (table t1 t2 : List (List ℚ)) (rec : List ℚ) (a b c d e f g : ℚ)
    (hz : z ≤ 75)
    (hs : systemIdOf st = Except.ok sid)
    (hm : meteoroidIdOf mt = Except.ok mid)
    (hload : loadFitCSV fs "preatmosphere_fits.csv" ';' = Except.ok table)
    (hf1 : filterKey 0 sid table = Except.ok t1)
    (hf2 : filterKey 1 mid t1 = Except.ok t2)
    (hsel : selectRecord t2 v m = Except.ok rec)
    (hco : rec.drop 4 = [a, b, c, d, e, f, g]) :
    velocityCorrection fs v m z mt st =
      Except.ok (zangleModel (z * mathPi / 180) a b c d e f g / 1000) := by
  unfold velocityCorrection
  rw [if_neg (not_lt.mpr hz)]
  simp only [hs, bind_ok, hm, hload, hf1, hf2, hsel, hco]
  rfl

/-- Claim C3: the schema-B correction clamps the zenith angle to 75
degrees before any processing, so a call with zenith angle 80 returns
exactly the same value as a call with zenith angle 75, for every file
system, velocity, magnitude and pair of category strings. -/
theorem velocityCorrection_clamp_75 (fs : FileSystem) (v m : ℚ) (mt st : String) :
    velocityCorrection fs v m 80 mt st = velocityCorrection fs v m 75 mt st := by
  unfold velocityCorrection
  norm_num

/-- Claim C9: selection is deterministic and depends on the file system
only through the contents of the single table file: two calls with
identical arguments reading identical file contents return the
identical result. -/
theorem velocityCorrection_deterministic (fs1 fs2 : FileSystem)
    (h : fs1 "preatmosphere_fits.csv" = fs2 "preatmosphere_fits.csv")
    (v m z : ℚ) (mt st : String) :
    velocityCorrection fs1 v m z mt st = velocityCorrection fs2 v m z mt st := by
  unfold velocityCorrection loadFitCSV
  rw [h]

theorem filterKey_sub {idx : Nat} {key : ℚ} :
    ∀ {L out : List (List ℚ)}, filterKey idx key L = Except.ok out →
      ∀ l ∈ out, l.get? idx = some key ∧ l ∈ L := by
  intro L
  induction L with
  | nil =>
    intro out h l hl
    unfold filterKey at h
    simp only [Except.ok.injEq] at h
    rw [← h] at hl
    simp at hl
  | cons x rest ih =>
    intro out h l hl
    unfold filterKey at h
    rw [bind_eq_ok] at h
    obtain ⟨xv, hxv, h⟩ := h
    rw [bind_eq_ok] at h
    obtain ⟨tail, htail, h⟩ := h
    simp only [Except.ok.injEq] at h
    by_cases hk : xv = key
    · rw [if_pos hk] at h
      rw [← h] at hl
      rcases List.mem_cons.mp hl with h1 | h1
      · refine ⟨?_, ?_⟩
        · rw [h1, ← hk]
          exact pyGet_eq_ok.mp hxv
        · rw [h1]
          exact List.mem_cons_self x rest
      · obtain ⟨p1, p2⟩ := ih htail l h1
        exact ⟨p1, List.mem_cons_of_mem x p2⟩
    · rw [if_neg hk] at h
      rw [← h] at hl
      obtain ⟨p1, p2⟩ := ih htail l hl
      exact ⟨p1, List.mem_cons_of_mem x p2⟩

theorem selectRecord_mem {L : List (List ℚ)} {v m : ℚ} {rec : List ℚ}
    (h : selectRecord L v m = Except.ok rec) : rec ∈ L := by
  unfold selectRecord at h
  simp only [bind_eq_ok] at h
  obtain ⟨vd, hvd, mg, hmg, mn, hmn, mi, hmi, idx, hidx, hfin⟩ := h
  exact List.get?_mem (pyGet_eq_ok.mp hfin)

/-- Claim C8: the embedded enumerations map the three system strings to
ids 0, 1, 2 and the three meteoroid strings to ids 0, 1, 2 exactly as
specified, the table is filtered by exact equality on those ids, and
the selected record always carries exactly the system id and meteoroid
id of the query. -/
theorem selected_record_matches_category
    (fs : FileSystem) (v m sid mid : ℚ) (mt st : String)
    (table t1 t2 : List (List ℚ)) (rec : List ℚ)
    (hs : systemIdOf st = Except.ok sid)
    (hm : meteoroidIdOf mt = Except.ok mid)
    (hload : loadFitCSV fs "preatmosphere_fits.csv" ';' = Except.ok table)
    (hf1 : filterKey 0 sid table = Except.ok t1)
    (hf2 : filterKey 1 mid t1 = Except.ok t2)
    (hsel : selectRecord t2 v m = Except.ok rec) :
    (systemIdOf "allsky" = Except.ok 0 ∧ systemIdOf "moderate" = Except.ok 1
      ∧ systemIdOf "intensified" = Except.ok 2
      ∧ meteoroidIdOf "cometary" = Except.ok 0
      ∧ meteoroidIdOf "asteroidal" = Except.ok 1
      ∧ meteoroidIdOf "iron-rich" = Except.ok 2)
    ∧ rec.get? 0 = some sid ∧ rec.get? 1 = some mid := by
  have hmem2 : rec ∈ t2 := selectRecord_mem hsel
  obtain ⟨p1, hmem1⟩ := filterKey_sub hf2 rec hmem2
  obtain ⟨p0, _⟩ := filterKey_sub hf1 rec hmem1
  refine ⟨⟨?_, ?_, ?_, ?_, ?_, ?_⟩, p0, p1⟩ <;> with_unfolding_all rfl

theorem parseField_error {f : List Char} {e : PyError}
    (h : parseField f = Except.error e) : ∃ msg, e = PyError.valueError msg := by
  unfold parseField at h
  cases hp : parseFloat f with
  | some q => rw [hp] at h; exact absurd h (by simp)
  | none =>
    rw [hp] at h
    simp only [Except.error.injEq] at h
    exact ⟨_, h.symm⟩

theorem mapE_parseField_error :
    ∀ {flds : List (List Char)} {e : PyError},
      mapE parseField flds = Except.error e → ∃ msg, e = PyError.valueError msg := by
  intro flds
  induction flds with
  | nil => intro e h; simp [mapE] at h
  | cons f fs ih =>
    intro e h
    unfold mapE at h
    cases hf : parseField f with
    | error e1 =>
      rw [hf, bind_error] at h
      simp only [Except.error.injEq] at h
      rw [← h]
      exact parseField_error hf
    | ok b =>
      rw [hf, bind_ok] at h
      cases hrec : mapE parseField fs with
      | error e2 =>
        rw [hrec, bind_error] at h
        simp only [Except.error.injEq] at h
        rw [← h]
        exact ih hrec
      | ok bs => rw [hrec, bind_ok] at h; exact absurd h (by simp)

theorem mapE_parseField_error_of_mem :
    ∀ {flds : List (List Char)}, (∃ f ∈ flds, parseFloat f = none) →
      ∃ msg, mapE parseField flds = Except.error (PyError.valueError msg) := by
  intro flds
  induction flds with
  | nil => rintro ⟨f, hf, _⟩; simp at hf
  | cons f0 fs ih =>
    rintro ⟨f, hf, hnone⟩
    cases hp : parseFloat f0 with
    | none =>
      refine ⟨"could not convert string to float: \x27" ++ String.mk f0 ++ "\x27", ?_⟩
      unfold mapE
      have hf0 : parseField f0 = Except.error (PyError.valueError
          ("could not convert string to float: \x27" ++ String.mk f0 ++ "\x27")) := by
        unfold parseField
        rw [hp]
      rw [hf0, bind_error]
    | some q =>
      have hffs : f ∈ fs := by
        rcases List.mem_cons.mp hf with h1 | h1
        · rw [h1, hp] at hnone; exact absurd hnone (by simp)
        · exact h1
      obtain ⟨msg, hmsg⟩ := ih ⟨f, hffs, hnone⟩
      refine ⟨msg, ?_⟩
      unfold mapE
      have hok : parseField f0 = Except.ok q := by
        unfold parseField
        rw [hp]
      rw [hok, bind_ok, hmsg, bind_error]

theorem loadFitCSV_eq {fs : FileSystem} {name : String} (d : Char) {ls : List String}
    (h : fs name = some ls) : loadFitCSV fs name d = loadLines d ls := by
  unfold loadFitCSV
  rw [h]

theorem loadFitCSV_missing {fs : FileSystem} {name : String} (d : Char)
    (h : fs name = none) :
    loadFitCSV fs name d = Except.error (PyError.fileNotFound name) := by
  unfold loadFitCSV
  rw [h]

theorem loadLines_error_of_empty {d : Char} :
    ∀ {ls : List String}, (∃ l ∈ ls, stripNewlines l = []) →
      ∃ e, loadLines d ls = Except.error e := by
  intro ls
  induction ls with
  | nil => rintro ⟨l, hl, _⟩; simp at hl
  | cons raw rest ih =>
    rintro ⟨l, hl, hle⟩
    by_cases hsr : stripNewlines raw = []
    · exact ⟨PyError.indexError, by unfold loadLines; rw [if_pos hsr]⟩
    · have hrest : ∃ l ∈ rest, stripNewlines l = [] := by
        rcases List.mem_cons.mp hl with h1 | h1
        · rw [← h1] at hsr; exact absurd hle hsr
        · exact ⟨l, h1, hle⟩
      obtain ⟨e, he⟩ := ih hrest
      by_cases hc : isComment (stripNewlines raw)
      · refine ⟨e, ?_⟩
        unfold loadLines
        rw [if_neg hsr, if_pos hc]
        exact he
      · cases hpl : parseLine d (stripNewlines raw) with
        | error e1 =>
          refine ⟨e1, ?_⟩
          unfold loadLines
          rw [if_neg hsr, if_neg hc, hpl, bind_error]
        | ok row =>
          refine ⟨e, ?_⟩
          unfold loadLines
          rw [if_neg hsr, if_neg hc, hpl, bind_ok, he, bind_error]

/-- Claim C10 (implicit): an input line that is empty after newline and
carriage-return removal is not skipped by the loader: processing it
fails at once with the out-of-bounds subscript (IndexError) used to
test the first character of the line; consequently the loader fails on
every file that contains such an empty line. -/
theorem loadFitCSV_empty_line_indexError :
    (∀ (d : Char) (raw : String) (rest : List String), stripNewlines raw = [] →
        loadLines d (raw :: rest) = Except.error PyError.indexError)
    ∧ (∀ (fs : FileSystem) (name : String) (d : Char) (ls : List String),
        fs name = some ls → (∃ l ∈ ls, stripNewlines l = []) →
          ∃ e, loadFitCSV fs name d = Except.error e) := by
  constructor
  · intro d raw rest h
    unfold loadLines
    rw [if_pos h]
  · intro fs name d ls hfs hex
    rw [loadFitCSV_eq d hfs]
    exact loadLines_error_of_empty hex

/-- Claim C10 witness. -/
theorem loadFitCSV_empty_line_indexError_witness :
    loadLines ';' ["" , "1;2"] = Except.error PyError.indexError
    ∧ ∃ e, loadFitCSV
        (fun n => if n = "preatmosphere_fits.csv" then some ["1;2", ""] else none)
        "preatmosphere_fits.csv" ';' = Except.error e := by
  constructor
  · exact loadFitCSV_empty_line_indexError.1 ';' "" ["1;2"] rfl
  · exact loadFitCSV_empty_line_indexError.2
      (fun n => if n = "preatmosphere_fits.csv" then some ["1;2", ""] else none)
      "preatmosphere_fits.csv" ';' ["1;2", ""] rfl
      ⟨"", by simp, rfl⟩

/-- Claim C6 (amended): the loader fails with a ValueError (the model
of ParseError) when a retained data line has a non-numeric field, and
with a FileNotFoundError when the file does not exist; the whole load
aborts with the error.  The field count of a data line is not checked:
a line with a wrong field count but numeric fields loads without error
(see the counterexample). -/
theorem loadFitCSV_failure_modes (fs : FileSystem) (name : String) (d : Char) :
    (fs name = none → loadFitCSV fs name d = Except.error (PyError.fileNotFound name))
    ∧ (∀ ls, fs name = some ls → (∀ l ∈ ls, stripNewlines l ≠ []) →
        (∃ l ∈ ls, isComment (stripNewlines l) = false
          ∧ ∃ f ∈ splitChars d (stripNewlines l), parseFloat f = none) →
        ∃ msg, loadFitCSV fs name d = Except.error (PyError.valueError msg)) := by
  constructor
  · intro h
    exact loadFitCSV_missing d h
  · intro ls hfs hne hbad
    rw [loadFitCSV_eq d hfs]
    clear hfs
    induction ls with
    | nil => obtain ⟨l, hl, _⟩ := hbad; simp at hl
    | cons raw rest ih =>
      have hner : ∀ l ∈ rest, stripNewlines l ≠ [] :=
        fun l hl => hne l (List.mem_cons_of_mem raw hl)
      have hraw : stripNewlines raw ≠ [] := hne raw (List.mem_cons_self raw rest)
      obtain ⟨l, hl, hcomm, hfield⟩ := hbad
      by_cases hc : isComment (stripNewlines raw)
      · have hlr : l ∈ rest := by
          rcases List.mem_cons.mp hl with h1 | h1
          · rw [← h1] at hc; rw [hcomm] at hc; exact absurd hc (by simp)
          · exact h1
        obtain ⟨msg, hmsg⟩ := ih hner ⟨l, hlr, hcomm, hfield⟩
        refine ⟨msg, ?_⟩
        unfold loadLines
        rw [if_neg hraw, if_pos hc]
        exact hmsg
      · cases hpl : parseLine d (stripNewlines raw) with
        | error e1 =>
          have hpl2 : mapE parseField (splitChars d (stripNewlines raw))
              = Except.error e1 := hpl
          obtain ⟨msg, hmsg⟩ := mapE_parseField_error hpl2
          refine ⟨msg, ?_⟩
          unfold loadLines
          rw [if_neg hraw, if_neg hc, hpl, bind_error, hmsg]
        | ok row =>
          have hlr : l ∈ rest := by
            rcases List.mem_cons.mp hl with h1 | h1
            · exfalso
              rw [h1] at hfield
              obtain ⟨msg2, hmsg2⟩ := mapE_parseField_error_of_mem hfield
              unfold parseLine at hpl
              rw [hmsg2] at hpl
              exact absurd hpl (by simp)
            · exact h1
          obtain ⟨msg, hmsg⟩ := ih hner ⟨l, hlr, hcomm, hfield⟩
          refine ⟨msg, ?_⟩
          unfold loadLines
          rw [if_neg hraw, if_neg hc, hpl, bind_ok, hmsg, bind_error]

/-- Claim C6 counterexample: a data line with only three numeric fields
(schema B has eleven per row) loads without any error, refuting the
claim that a wrong field count makes the loader fail with a ParseError. -/
theorem loadFitCSV_wrong_field_count_ok :
    loadFitCSV (fun n => if n = "preatmosphere_fits.csv" then some ["1;2;3"] else none)
        "preatmosphere_fits.csv" ';'
      = Except.ok [[1, 2, 3]]
    ∧ ([1, 2, 3] : List ℚ).length ≠ 11 := by
  constructor
  · with_unfolding_all rfl
  · decide

/-- Claim C6 witness. -/
theorem loadFitCSV_failure_modes_witness :
    loadFitCSV (fun _ => none) "preatmosphere_fits.csv" ';'
      = Except.error (PyError.fileNotFound "preatmosphere_fits.csv")
    ∧ ∃ msg, loadFitCSV
        (fun n => if n = "preatmosphere_fits.csv" then some ["0;x;3"] else none)
        "preatmosphere_fits.csv" ';' = Except.error (PyError.valueError msg) := by
  constructor
  · exact (loadFitCSV_failure_modes (fun _ => none) "preatmosphere_fits.csv" ';').1 rfl
  · exact (loadFitCSV_failure_modes
        (fun n => if n = "preatmosphere_fits.csv" then some ["0;x;3"] else none)
        "preatmosphere_fits.csv" ';').2 ["0;x;3"] rfl
      (by intro l hl; rw [List.mem_singleton.mp hl]; decide)
      ⟨"0;x;3", List.mem_singleton.mpr rfl, by decide,
        ⟨['x'], by decide, by decide⟩⟩

/-- Claim C7 (amended): the loader excludes exactly those lines whose
first character (after newline and carriage-return removal) is the
comment marker, and parses every other line: on a file with no empty
lines the load equals the field-wise parse of the retained lines in
their original order. -/
theorem loadFitCSV_skips_hash_lines (fs : FileSystem) (name : String) (d : Char)
    (ls : List String) (hfs : fs name = some ls)
    (hne : ∀ l ∈ ls, stripNewlines l ≠ []) :
    loadFitCSV fs name d
      = mapE (parseLine d) ((ls.map stripNewlines).filter (fun l => !(isComment l))) := by
  rw [loadFitCSV_eq d hfs]
  clear hfs
  induction ls with
  | nil => rfl
  | cons raw rest ih =>
    have hner : ∀ l ∈ rest, stripNewlines l ≠ [] :=
      fun l hl => hne l (List.mem_cons_of_mem raw hl)
    have hraw : stripNewlines raw ≠ [] := hne raw (List.mem_cons_self raw rest)
    have ihr := ih hner
    unfold loadLines
    rw [if_neg hraw]
    simp only [List.map_cons, List.filter_cons]
    by_cases hc : isComment (stripNewlines raw)
    · rw [if_pos hc, hc]
      simp only [Bool.not_true, Bool.false_eq_true, if_false]
      exact ihr
    · have hcf : (!isComment (stripNewlines raw)) = true := by simp [hc]
      rw [if_neg hc, hcf]
      simp only [if_true]
      conv_rhs => rw [mapE]
      simp only [ihr]

/-- Claim C7 counterexample: a line whose first non-whitespace content
is the comment marker but which starts with a space is not excluded by
the loader; instead of being skipped it is parsed and the load fails
with a conversion error. -/
theorem loadFitCSV_space_hash_not_skipped :
    firstNonWSIsHash " #x".data = true
    ∧ loadFitCSV (fun n => if n = "f.csv" then some ["# c", " #x", "1;2"] else none)
        "f.csv" ';'
      = Except.error (PyError.valueError
          "could not convert string to float: \x27 #x\x27") := by
  constructor
  · decide
  · with_unfolding_all rfl

/-- Claim C7 witness. -/
theorem loadFitCSV_skips_hash_lines_witness :
    loadFitCSV (fun n => if n = "g.csv" then some ["# header", "1;2", "#c", "3;4"] else none)
        "g.csv" ';'
      = mapE (parseLine ';')
          (((["# header", "1;2", "#c", "3;4"].map stripNewlines).filter
            (fun l => !(isComment l))))
    ∧ loadFitCSV (fun n => if n = "g.csv" then some ["# header", "1;2", "#c", "3;4"] else none)
        "g.csv" ';' = Except.ok [[1, 2], [3, 4]] := by
  constructor
  · exact loadFitCSV_skips_hash_lines
      (fun n => if n = "g.csv" then some ["# header", "1;2", "#c", "3;4"] else none)
      "g.csv" ';' ["# header", "1;2", "#c", "3;4"] rfl
      (by intro l hl; fin_cases hl <;> decide)
  · with_unfolding_all rfl

/-- Claim C4 (code bug): an unrecognized meteoroid type makes the
correction fail before any file access (the result is this same error
for every file system) with a ValueError naming the offending value,
but the message does not list the accepted set: it misspells the
accepted value cometary as comeraty, contradicting the docstring of
the function, so the accepted value is absent from the message. -/
theorem velocityCorrection_meteoroid_msg_typo (fs : FileSystem) :
    velocityCorrection fs 20 2 45 "rocky" "moderate"
      = Except.error (PyError.valueError
          "meteoroid_type = rocky not found! Try using \x27comeraty\x27, \x27asteroidal\x27 or \x27iron-rich\x27.")
    ∧ strContains
        "meteoroid_type = rocky not found! Try using \x27comeraty\x27, \x27asteroidal\x27 or \x27iron-rich\x27."
        "rocky" = true
    ∧ strContains
        "meteoroid_type = rocky not found! Try using \x27comeraty\x27, \x27asteroidal\x27 or \x27iron-rich\x27."
        "cometary" = false
    ∧ meteoroidIdOf "cometary" = Except.ok 0 := by
  refine ⟨?_, by decide, by decide, by with_unfolding_all rfl⟩
  with_unfolding_all rfl

/-- Claim C5 (amended): when the category filter yields zero rows the
correction fails — min() is applied to the empty magnitude-distance
sequence and raises ValueError — but this failure has the same
exception kind (ValueError) as the failure for a non-numeric field, so
the two are not distinguishable by kind, only by message. -/
theorem velocityCorrection_empty_filter_valueError
    (fs : FileSystem) (v m z : ℚ) (mt st : String) (sid mid : ℚ)
    (table t1 : List (List ℚ))
    (hs : systemIdOf st = Except.ok sid)
    (hm : meteoroidIdOf mt = Except.ok mid)
    (hload : loadFitCSV fs "preatmosphere_fits.csv" ';' = Except.ok table)
    (hf1 : filterKey 0 sid table = Except.ok t1)
    (hf2 : filterKey 1 mid t1 = Except.ok []) :
    velocityCorrection fs v m z mt st
      = Except.error (PyError.valueError "min() arg is an empty sequence")
    ∧ (∀ (f : List Char) (e : PyError), parseField f = Except.error e →
        errClass e = errClass (PyError.valueError "min() arg is an empty sequence")) := by
  constructor
  · unfold velocityCorrection
    simp only [hs, bind_ok, hm, hload, hf1, hf2]
    rfl
  · intro f e h
    obtain ⟨msg, hmsg⟩ := parseField_error h
    rw [hmsg]
    rfl

/-- Claim C5 counterexample: a query whose category filter is empty
fails with a ValueError (min on an empty sequence); a table with a
non-numeric field also fails with a ValueError; the two errors are of
the same exception kind, refuting distinguishability by kind. -/
theorem selection_error_same_kind_as_parse_error :
    velocityCorrection
        (fun n => if n = "preatmosphere_fits.csv"
          then some ["0;0;20000;2;1;2;3;4;5;6;7"] else none)
        20 2 45 "cometary" "intensified"
      = Except.error (PyError.valueError "min() arg is an empty sequence")
    ∧ velocityCorrection
        (fun n => if n = "preatmosphere_fits.csv" then some ["0;x;3"] else none)
        20 2 45 "cometary" "intensified"
      = Except.error (PyError.valueError "could not convert string to float: \x27x\x27")
    ∧ errClass (PyError.valueError "min() arg is an empty sequence")
      = errClass (PyError.valueError "could not convert string to float: \x27x\x27") := by
  refine ⟨?_, ?_, rfl⟩ <;> with_unfolding_all rfl

/-- Claim C5 witness. -/
theorem velocityCorrection_empty_filter_valueError_witness :
    velocityCorrection
        (fun n => if n = "preatmosphere_fits.csv"
          then some ["1;1;20000;2;1;2;3;4;5;6;7"] else none)
        20 2 45 "cometary" "moderate"
      = Except.error (PyError.valueError "min() arg is an empty sequence") :=
  (velocityCorrection_empty_filter_valueError
    (fun n => if n = "preatmosphere_fits.csv"
      then some ["1;1;20000;2;1;2;3;4;5;6;7"] else none)
    20 2 45 "cometary" "moderate" 1 0
    [[1, 1, 20000, 2, 1, 2, 3, 4, 5, 6, 7]] [[1, 1, 20000, 2, 1, 2, 3, 4, 5, 6, 7]]
    (by with_unfolding_all rfl) (by with_unfolding_all rfl)
    (by with_unfolding_all rfl) (by with_unfolding_all rfl)
    (by with_unfolding_all rfl)).1

/-- Claim C1 witness: two rows tie on the velocity distance; the row
whose magnitude is closer to the query is selected, and the code
selection agrees with the selection as worded by the specification. -/
theorem selectRecord_matches_spec_witness :
    selectRecord [[1, 0, 20000, 2, 1, 2, 3, 4, 5, 6, 7],
        [1, 0, 20000, 5, 9, 9, 9, 9, 9, 9, 9]] 20 (49/10)
      = (match specSelect [[1, 0, 20000, 2, 1, 2, 3, 4, 5, 6, 7],
          [1, 0, 20000, 5, 9, 9, 9, 9, 9, 9, 9]] 20 (49/10) with
        | some r => Except.ok r
        | none => Except.error (PyError.valueError "min() arg is an empty sequence"))
    ∧ selectRecord [[1, 0, 20000, 2, 1, 2, 3, 4, 5, 6, 7],
        [1, 0, 20000, 5, 9, 9, 9, 9, 9, 9, 9]] 20 (49/10)
      = Except.ok [1, 0, 20000, 5, 9, 9, 9, 9, 9, 9, 9] := by
  constructor
  · exact selectRecord_matches_spec
      [[1, 0, 20000, 2, 1, 2, 3, 4, 5, 6, 7], [1, 0, 20000, 5, 9, 9, 9, 9, 9, 9, 9]]
      20 (49/10) (by decide)
  · with_unfolding_all rfl

/-- Claim C2 witness. -/
theorem velocityCorrection_polynomial_eval_witness :
    (45 : ℚ) ≤ 75
    ∧ velocityCorrection
        (fun n => if n = "preatmosphere_fits.csv"
          then some ["# header", "1;0;20000;2;1;2;3;4;5;6;7"] else none)
        20 2 45 "cometary" "moderate"
      = Except.ok (zangleModel ((45 : ℚ) * mathPi / 180) 1 2 3 4 5 6 7 / 1000) := by
  refine ⟨by norm_num, ?_⟩
  exact velocityCorrection_polynomial_eval
    (fun n => if n = "preatmosphere_fits.csv"
      then some ["# header", "1;0;20000;2;1;2;3;4;5;6;7"] else none)
    20 2 45 1 0 "cometary" "moderate"
    [[1, 0, 20000, 2, 1, 2, 3, 4, 5, 6, 7]] [[1, 0, 20000, 2, 1, 2, 3, 4, 5, 6, 7]]
    [[1, 0, 20000, 2, 1, 2, 3, 4, 5, 6, 7]] [1, 0, 20000, 2, 1, 2, 3, 4, 5, 6, 7]
    1 2 3 4 5 6 7
    (by norm_num) (by with_unfolding_all rfl) (by with_unfolding_all rfl)
    (by with_unfolding_all rfl) (by with_unfolding_all rfl) (by with_unfolding_all rfl)
    (by with_unfolding_all rfl) (by with_unfolding_all rfl)

/-- Claim C8 witness. -/
theorem selected_record_matches_category_witness :
    ([1, 0, 20000, 2, 1, 2, 3, 4, 5, 6, 7] : List ℚ).get? 0 = some 1
    ∧ ([1, 0, 20000, 2, 1, 2, 3, 4, 5, 6, 7] : List ℚ).get? 1 = some 0 := by
  have h := selected_record_matches_category
    (fun n => if n = "preatmosphere_fits.csv"
      then some ["1;0;20000;2;1;2;3;4;5;6;7"] else none)
    20 2 1 0 "cometary" "moderate"
    [[1, 0, 20000, 2, 1, 2, 3, 4, 5, 6, 7]] [[1, 0, 20000, 2, 1, 2, 3, 4, 5, 6, 7]]
    [[1, 0, 20000, 2, 1, 2, 3, 4, 5, 6, 7]] [1, 0, 20000, 2, 1, 2, 3, 4, 5, 6, 7]
    (by with_unfolding_all rfl) (by with_unfolding_all rfl) (by with_unfolding_all rfl)
    (by with_unfolding_all rfl) (by with_unfolding_all rfl) (by with_unfolding_all rfl)
  exact ⟨h.2.1, h.2.2⟩

/-- Claim C9 witness: the two file systems agree on the table file but
differ elsewhere, and the two calls return the identical value. -/
theorem velocityCorrection_deterministic_witness :
    velocityCorrection
        (fun n => if n = "preatmosphere_fits.csv"
          then some ["1;0;20000;2;1;2;3;4;5;6;7"] else none)
        20 2 45 "cometary" "moderate"
      = velocityCorrection
        (fun n => if n = "preatmosphere_fits.csv"
          then some ["1;0;20000;2;1;2;3;4;5;6;7"] else some ["other"])
        20 2 45 "cometary" "moderate" :=
  velocityCorrection_deterministic
    (fun n => if n = "preatmosphere_fits.csv"
      then some ["1;0;20000;2;1;2;3;4;5;6;7"] else none)
    (fun n => if n = "preatmosphere_fits.csv"
      then some ["1;0;20000;2;1;2;3;4;5;6;7"] else some ["other"])
    (by with_unfolding_all rfl) 20 2 45 "cometary" "moderate"
